import Mathlib

/-!
Shallow embedding of the `authentication` app of the djangoauth repository.

The app consists of declarative ORM schema (`models.py`), a post-save signal
hook (`signals.py`) and admin bindings (`admin.py`).  We embed the data model
as Lean structures, the database as explicit state (lists of rows plus id
counters), and the operations (`CustomUserManager.create_user`,
`CustomUserManager.create_superuser`, the `post_save` hook
`create_user_address`, and the query methods `has_role`, `has_permission`,
`get_all_permissions`) as pure state-passing functions.  Fallible operations
return `Except String`.

Framework primitives used by the source are embedded with their documented
Django semantics:
  * `BaseUserManager.normalize_email` strips surrounding whitespace and
    lowercases the part after the last `@` (only the domain part); a string
    without `@` is returned unchanged.
  * `Model.save` INSERTs when the row's primary key is not yet stored and
    UPDATEs otherwise, enforcing the UNIQUE constraint on `email` by exact
    string comparison, then dispatches the `post_save` signal with
    `created = true` exactly on INSERT.
  * `set_password` stores a password-hasher encoding of the raw password
    (never the raw password itself); `set_password(None)` stores an
    unusable-password marker.
  * `values_list("permissions__name_value", flat=True)` traverses the
    many-to-many relation with a LEFT OUTER JOIN: a role that has no
    permissions contributes a NULL (here `none`) row; `.distinct()` removes
    duplicate rows (SQL DISTINCT treats NULLs as equal).
-/

/-- `RolePermission` model: a named capability token.  `name_value` is a
nullable column (`null=True`), hence `Option String`. -/
structure RolePermission where
  id : Nat
  name : String
  name_value : Option String
  description : Option String
  deriving DecidableEq, Repr

/-- `Role` model: a named group of permissions.  The many-to-many
`permissions` set is embedded as the list of related permission rows. -/
structure Role where
  id : Nat
  name : String
  permissions : List RolePermission
  deriving DecidableEq, Repr

/-- `Address` model: a flat postal address row. -/
structure Address where
  id : Nat
  street : String
  city : String
  state : String
  zip_code : String
  country : String
  deriving DecidableEq, Repr

/-- `CustomUser` model: email-keyed account.  `address` is the nullable
one-to-one link (stored as the related row's id); `role` is the many-to-many
role set, embedded as the list of related role rows. -/
structure CustomUser where
  id : Nat
  email : String
  password : String
  is_staff : Bool
  is_superuser : Bool
  is_active : Bool
  address : Option Nat
  role : List Role
  deriving DecidableEq, Repr

/-- The persisted store: user and address tables plus the auto-increment
counters for their primary keys. -/
structure DB where
  users : List CustomUser
  addresses : List Address
  next_user_id : Nat
  next_address_id : Nat
  deriving DecidableEq, Repr

def DB.empty : DB := ⟨[], [], 0, 0⟩

/-- Well-formedness of the store: every stored primary key is below the
corresponding auto-increment counter (so freshly assigned ids are new). -/
def DB.WF (db : DB) : Prop :=
  (∀ r ∈ db.users, r.id < db.next_user_id) ∧
  (∀ a ∈ db.addresses, a.id < db.next_address_id)

instance (db : DB) : Decidable db.WF := by
  unfold DB.WF; infer_instance

/-- The `**extra_fields` keyword arguments accepted by the user factory:
a field is `none` when the caller did not pass it (so `setdefault` applies)
and `some b` when the caller passed it explicitly. -/
structure ExtraFields where
  is_staff : Option Bool := none
  is_superuser : Option Bool := none
  is_active : Option Bool := none
  address : Option Nat := none
  deriving DecidableEq, Repr

/-- ASCII fragment of Python `str.lower`, applied per character. -/
def asciiLower (c : Char) : Char :=
  if 'A' ≤ c ∧ c ≤ 'Z' then Char.ofNat (c.toNat + 32) else c

/-- Python `str.lower` restricted to ASCII (emails in this app are ASCII). -/
def pyLower (s : String) : String :=
  String.mk (s.data.map asciiLower)

/-- Python `str.strip()`: remove leading and trailing whitespace. -/
def pyStrip (s : String) : String :=
  String.mk (((s.data.dropWhile Char.isWhitespace).reverse.dropWhile
    Char.isWhitespace).reverse)

/-- Python `s.rsplit("@", 1)` when it yields two parts: split at the LAST
`@`; `none` when the string contains no `@`. -/
def rsplitAtSign (s : String) : Option (String × String) :=
  let r := s.data.reverse
  if '@' ∈ r then
    some (String.mk ((r.dropWhile (fun c => c ≠ '@')).tail.reverse),
          String.mk ((r.takeWhile (fun c => c ≠ '@')).reverse))
  else none

/-- `BaseUserManager.normalize_email`: strip whitespace, split at the last
`@`, lowercase the domain part only.  Without an `@` the original (even
un-stripped) string is returned, mirroring the `try/except ValueError`. -/
def normalize_email (email : String) : String :=
  match rsplitAtSign (pyStrip email) with
  | some (email_name, domain_part) => email_name ++ "@" ++ pyLower domain_part
  | none => email

/-- Django's password hasher, as used by `set_password`: a deterministic
stand-in producing the hasher's encoded form.  The properties the claims
rely on: the stored string is a function of the raw password and is never
the raw password itself, and `None` yields the unusable-password marker. -/
def make_password : Option String → String
  | none => "!unusablepassword"
  | some raw => "pbkdf2_sha256$hash$" ++ raw

/-- `self.model(email=email, **extra_fields)`: construct an (unsaved) user
row.  Field defaults follow `AbstractUser`: `is_staff=False`,
`is_superuser=False`, `is_active=True`, no address, no roles. -/
def CustomUser.model_init (id_ : Nat) (email : String) (ef : ExtraFields) :
    CustomUser :=
  { id := id_
    email := email
    password := ""
    is_staff := ef.is_staff.getD false
    is_superuser := ef.is_superuser.getD false
    is_active := ef.is_active.getD true
    address := ef.address
    role := [] }

/-- `user.set_password(password)`. -/
def CustomUser.set_password (u : CustomUser) (raw : Option String) :
    CustomUser :=
  { u with password := make_password raw }

/-- `Address.objects.create()`: insert an empty address row, returning the
updated store and the new row. -/
def Address.create (db : DB) : DB × Address :=
  let a : Address := ⟨db.next_address_id, "", "", "", "", ""⟩
  ({ db with addresses := db.addresses ++ [a],
             next_address_id := db.next_address_id + 1 }, a)

/-- The INSERT/UPDATE step of `Model.save` for a user row (uniqueness of
`email` is checked by the caller): UPDATE replaces the row with the same
primary key, INSERT appends and advances the id counter. -/
def DB.upsert (db : DB) (u : CustomUser) : DB :=
  if db.users.any (fun r => r.id == u.id) then
    { db with users := db.users.map (fun r => if r.id == u.id then u else r) }
  else
    { db with users := db.users ++ [u],
              next_user_id := max db.next_user_id (u.id + 1) }

/-- `instance.save()` for a user, signal dispatch included.  The row is
INSERTed when no stored row has its primary key (then the `post_save`
receiver runs with `created = true`), otherwise UPDATEd (`created = false`).
The UNIQUE constraint on `email` raises `IntegrityError` when a DIFFERENT
row stores the same email.  The `post_save` receiver `create_user_address`
(from `signals.py`) is inlined in the recursive call position: when
`created` holds and the instance has no address it creates an empty address
row, attaches it and re-saves; the re-save dispatches the signal again with
`created = false`.  The signal-dispatch depth is bounded by the `fuel`
argument; depth 2 is exact for every entry point in this app, since the
re-save always finds the row already stored. -/
def save_user : Nat → DB → CustomUser → Except String (DB × CustomUser)
  | 0, db, u => .ok (db, u)
  | fuel+1, db, u =>
    if db.users.any (fun r => !(r.id == u.id) && (r.email == u.email)) then
      .error "UNIQUE constraint failed: email"
    else
      let created := db.users.all (fun r => !(r.id == u.id))
      let db1 := db.upsert u
      if created && u.address.isNone then
        let p := Address.create db1
        save_user fuel p.1 { u with address := some p.2.id }
      else
        .ok (db1, u)

/-- The `post_save` receiver from `signals.py`, as its own function
(`inst` is the receiver's `instance` argument, renamed because `instance`
is a Lean keyword): `if created and not instance.address:` create an empty
address, attach it, and re-save the instance; otherwise do nothing. -/
def create_user_address (fuel : Nat) (db : DB) (inst : CustomUser)
    (created : Bool) : Except String (DB × CustomUser) :=
  if created && inst.address.isNone then
    let p := Address.create db
    save_user fuel p.1 { inst with address := some p.2.id }
  else
    .ok (db, inst)

/-- `CustomUserManager.create_user`: reject an empty email, normalize it,
construct the row, hash the password, save. -/
def CustomUserManager.create_user (db : DB) (email : String)
    (password : Option String) (extra_fields : ExtraFields) :
    Except String (DB × CustomUser) :=
  if email = "" then
    .error "The Email field must be set"
  else
    let email1 := normalize_email email
    let user := (CustomUser.model_init db.next_user_id email1 extra_fields
      ).set_password password
    save_user 2 db user

/-- `CustomUserManager.create_superuser`: `setdefault` the three elevation
flags to `True`, reject an explicitly non-`True` `is_staff` or
`is_superuser`, then delegate to `create_user`. -/
def CustomUserManager.create_superuser (db : DB) (email : String)
    (password : Option String) (extra_fields : ExtraFields) :
    Except String (DB × CustomUser) :=
  let ef := { extra_fields with
    is_staff := some (extra_fields.is_staff.getD true)
    is_superuser := some (extra_fields.is_superuser.getD true)
    is_active := some (extra_fields.is_active.getD true) }
  if !(ef.is_staff == some true) then
    .error "Superuser must have is_staff=True."
  else if !(ef.is_superuser == some true) then
    .error "Superuser must have is_superuser=True."
  else
    CustomUserManager.create_user db email password ef

/-- `CustomUser.has_role`: `self.role.filter(name=role_name).exists()`. -/
def CustomUser.has_role (u : CustomUser) (role_name : String) : Bool :=
  u.role.any (fun r => r.name == role_name)

/-- `CustomUser.has_permission`:
`self.role.filter(permissions__name_value=permission_name).exists()`.
SQL equality never matches a NULL `name_value`. -/
def CustomUser.has_permission (u : CustomUser) (permission_name : String) :
    Bool :=
  u.role.any (fun r =>
    r.permissions.any (fun p => p.name_value == some permission_name))

/-- `CustomUser.get_all_permissions`:
`list(self.role.values_list("permissions__name_value", flat=True).distinct())`.
The LEFT OUTER JOIN yields one NULL row for a role without permissions;
DISTINCT removes duplicates. -/
def CustomUser.get_all_permissions (u : CustomUser) : List (Option String) :=
  ((u.role.map (fun r =>
      if r.permissions.isEmpty then [none]
      else r.permissions.map (fun p => p.name_value))).flatten).dedup

/-! ### Concrete rows and stores used by witnesses and counterexamples -/

/-- A role with an empty permission set. -/
def internRole : Role := ⟨1, "Intern", []⟩

/-- A user whose single role has no permissions. -/
def internUser : CustomUser :=
  ⟨7, "intern@example.com", "pw", false, false, true, none, [internRole]⟩

/-- A role with two permissions. -/
def adminRole : Role :=
  ⟨2, "Admin", [⟨1, "Payrolls", some "payrolls", none⟩,
                ⟨2, "Clients", some "clients", none⟩]⟩

/-- A user holding `adminRole`. -/
def adminUser : CustomUser :=
  ⟨8, "admin@example.com", "pw", true, false, true, none, [adminRole]⟩

/-- The user row produced by `create_superuser` on the empty store with
email `root@example.com` and no password or extra fields. -/
def rootUser : CustomUser :=
  { id := 0, email := "root@example.com", password := "!unusablepassword",
    is_staff := true, is_superuser := true, is_active := true,
    address := some 0, role := [] }

/-- The store/user pair returned by that `create_superuser` call. -/
def superuserResult : DB × CustomUser :=
  ({ users := [rootUser], addresses := [⟨0, "", "", "", "", ""⟩],
     next_user_id := 1, next_address_id := 1 }, rootUser)

/-- The empty address row created at counter value `n`. -/
def emptyAddressAt (n : Nat) : Address := ⟨n, "", "", "", "", ""⟩

/-- The user row produced by `create_user` on the empty store with email
`c1@example.com` and no password. -/
def uC1 : CustomUser :=
  { id := 0, email := "c1@example.com", password := "!unusablepassword",
    is_staff := false, is_superuser := false, is_active := true,
    address := some 0, role := [] }

/-- The store after that `create_user` call. -/
def dbC1 : DB :=
  { users := [uC1], addresses := [⟨0, "", "", "", "", ""⟩],
    next_user_id := 1, next_address_id := 1 }

/-- The user row produced by `create_user` on the empty store with email
`a@example.com` and no password. -/
def uE1 : CustomUser :=
  { id := 0, email := "a@example.com", password := "!unusablepassword",
    is_staff := false, is_superuser := false, is_active := true,
    address := some 0, role := [] }

/-- The store after that `create_user` call. -/
def dbE1 : DB :=
  { users := [uE1], addresses := [⟨0, "", "", "", "", ""⟩],
    next_user_id := 1, next_address_id := 1 }

/-- The user row as finally stored by a successful fresh `create_user`
call: id and address freshly assigned, email normalized, password hashed,
flags from `extra_fields` with the `AbstractUser` defaults. -/
def finalUser (db : DB) (email : String) (pw : Option String)
    (ef : ExtraFields) : CustomUser :=
  { id := db.next_user_id, email := normalize_email email,
    password := make_password pw,
    is_staff := ef.is_staff.getD false,
    is_superuser := ef.is_superuser.getD false,
    is_active := ef.is_active.getD true,
    address := some db.next_address_id, role := [] }

/-! ### General lemmas about `save_user` -/

/-- `save_user` never invents field values: a successful save returns the
instance it was given, except possibly for the `address` field set by the
`post_save` receiver. -/
theorem save_user_preserves_fields (fuel : Nat) :
    ∀ (db db1 : DB) (u u1 : CustomUser),
      save_user fuel db u = .ok (db1, u1) →
      u1.email = u.email ∧ u1.password = u.password ∧
      u1.is_staff = u.is_staff ∧ u1.is_superuser = u.is_superuser ∧
      u1.is_active = u.is_active ∧ u1.role = u.role := by
  induction fuel with
  | zero =>
    intro db db1 u u1 h
    simp only [save_user, Except.ok.injEq, Prod.mk.injEq] at h
    rw [h.2]
    exact ⟨rfl, rfl, rfl, rfl, rfl, rfl⟩
  | succ n ih =>
    intro db db1 u u1 h
    simp only [save_user] at h
    split at h
    · exact absurd h (by simp)
    · split at h
      · have hx := ih _ _ _ _ h
        simpa using hx
      · simp only [Except.ok.injEq, Prod.mk.injEq] at h
        rw [h.2]
        exact ⟨rfl, rfl, rfl, rfl, rfl, rfl⟩

/-- C2: a call to `create_user` with an empty email fails with an error
before any write occurs: no user record is persisted and the stored state
is unchanged (the error return carries no new state). -/
theorem create_user_empty_email_rejected (db : DB) (p : Option String)
    (ef : ExtraFields) :
    CustomUserManager.create_user db "" p ef =
      .error "The Email field must be set" := by
  simp [CustomUserManager.create_user]

/-- C3: `create_superuser` fails with an error, before any write occurs,
whenever the caller explicitly passes `is_staff=False` or explicitly passes
`is_superuser=False`. -/
theorem create_superuser_explicit_false_rejected (db : DB) (e : String)
    (p : Option String) (ef : ExtraFields)
    (h : ef.is_staff = some false ∨ ef.is_superuser = some false) :
    ∃ msg, CustomUserManager.create_superuser db e p ef = .error msg := by
  rcases h with h | h
  · exact ⟨"Superuser must have is_staff=True.",
      by simp [CustomUserManager.create_superuser, h]⟩
  · cases hs : ef.is_staff with
    | none => exact ⟨"Superuser must have is_superuser=True.",
        by simp [CustomUserManager.create_superuser, h, hs]⟩
    | some b =>
      cases b with
      | false => exact ⟨"Superuser must have is_staff=True.",
          by simp [CustomUserManager.create_superuser, hs]⟩
      | true => exact ⟨"Superuser must have is_superuser=True.",
          by simp [CustomUserManager.create_superuser, h, hs]⟩

/-- Witness for C3 at a concrete input. -/
theorem create_superuser_explicit_false_rejected_witness :
    (({ is_staff := some false } : ExtraFields).is_staff = some false ∨
      ({ is_staff := some false } : ExtraFields).is_superuser = some false) ∧
    ∃ msg, CustomUserManager.create_superuser DB.empty "root@example.com"
      none { is_staff := some false } = .error msg :=
  ⟨Or.inl rfl,
   create_superuser_explicit_false_rejected DB.empty "root@example.com"
     none { is_staff := some false } (Or.inl rfl)⟩

/-- C7: `has_role` returns true exactly when the user's role set contains a
role with the given name. -/
theorem has_role_iff (u : CustomUser) (r : String) :
    u.has_role r = true ↔ ∃ ro ∈ u.role, ro.name = r := by
  simp [CustomUser.has_role, List.any_eq_true]

/-- C8: `has_permission` returns true exactly when some role of the user
includes a permission whose `name_value` equals the given name. -/
theorem has_permission_iff (u : CustomUser) (p : String) :
    u.has_permission p = true ↔
      ∃ ro ∈ u.role, ∃ pe ∈ ro.permissions, pe.name_value = some p := by
  simp [CustomUser.has_permission, List.any_eq_true]

/-- C9: the `post_save` receiver is a no-op unless this save just created
the row and the instance lacks an address: with `created = false` or an
address already attached, it creates no `Address` row and returns the store
and the user record unchanged. -/
theorem create_user_address_frame (fuel : Nat) (db : DB) (inst : CustomUser)
    (created : Bool) (h : created = false ∨ inst.address ≠ none) :
    create_user_address fuel db inst created = .ok (db, inst) := by
  unfold create_user_address
  rcases h with h | h
  · subst h; simp
  · have hn : inst.address.isNone = false := by
      cases ha : inst.address with
      | none => exact absurd ha h
      | some a => rfl
    simp [hn]

/-- Witness for C9 at a concrete input. -/
theorem create_user_address_frame_witness :
    ((false = false ∨ internUser.address ≠ none) ∧
      create_user_address 2 DB.empty internUser false = .ok (DB.empty, internUser)) :=
  ⟨Or.inl rfl,
   create_user_address_frame 2 DB.empty internUser false (Or.inl rfl)⟩

/-- C5 counterexample: the claim fails on a user whose single role has no
permissions.  The LEFT OUTER JOIN of
`values_list("permissions__name_value")` yields a NULL row for that role,
so `get_all_permissions` returns an element (`none`) that is not the
name-value of any permission held by any role of the user. -/
theorem get_all_permissions_null_row_counterexample :
    ¬ (∀ x ∈ internUser.get_all_permissions,
        ∃ r ∈ internUser.role, ∃ p ∈ r.permissions, p.name_value = x) := by
  decide

/-- C5 amended: for every user all of whose roles hold at least one
permission, `get_all_permissions` returns exactly the distinct union of the
name-values of the permissions of the user's roles: every returned element
is such a name-value, every such name-value appears, and no element appears
twice.  (A role with no permissions additionally contributes a NULL row,
which is what defeats the unamended claim.) -/
theorem get_all_permissions_distinct_union (u : CustomUser)
    (hne : ∀ r ∈ u.role, r.permissions ≠ []) :
    (∀ x ∈ u.get_all_permissions,
      ∃ r ∈ u.role, ∃ p ∈ r.permissions, p.name_value = x) ∧
    (∀ r ∈ u.role, ∀ p ∈ r.permissions,
      p.name_value ∈ u.get_all_permissions) ∧
    u.get_all_permissions.Nodup := by
  unfold CustomUser.get_all_permissions
  refine ⟨?_, ?_, List.nodup_dedup _⟩
  · intro x hx
    rw [List.mem_dedup, List.mem_flatten] at hx
    obtain ⟨l, hl, hxl⟩ := hx
    rw [List.mem_map] at hl
    obtain ⟨r, hr, hrl⟩ := hl
    rw [if_neg (by simpa using hne r hr)] at hrl
    subst hrl
    rw [List.mem_map] at hxl
    obtain ⟨p, hp, hpx⟩ := hxl
    exact ⟨r, hr, p, hp, hpx⟩
  · intro r hr p hp
    rw [List.mem_dedup, List.mem_flatten]
    refine ⟨r.permissions.map (fun q => q.name_value), ?_, ?_⟩
    · rw [List.mem_map]
      exact ⟨r, hr, if_neg (by simpa using hne r hr)⟩
    · exact List.mem_map_of_mem _ hp

/-- C5 witness for the amended theorem, at a concrete user. -/
theorem get_all_permissions_distinct_union_witness :
    (∀ r ∈ adminUser.role, r.permissions ≠ []) ∧
    ((∀ x ∈ adminUser.get_all_permissions,
        ∃ r ∈ adminUser.role, ∃ p ∈ r.permissions, p.name_value = x) ∧
      (∀ r ∈ adminUser.role, ∀ p ∈ r.permissions,
        p.name_value ∈ adminUser.get_all_permissions) ∧
      adminUser.get_all_permissions.Nodup) :=
  ⟨by decide, get_all_permissions_distinct_union adminUser (by decide)⟩

/-- C4 counterexample: `create_superuser` only checks `is_staff` and
`is_superuser`; an explicit `is_active=False` is accepted, so a successful
call can return a superuser whose `is_active` flag is false. -/
theorem create_superuser_inactive_counterexample :
    (CustomUserManager.create_superuser DB.empty "s@example.com" none
      { is_active := some false }).toOption.map (fun r => r.2.is_active) =
      some false := by
  decide

/-- C4 amended: every successful `create_superuser` call returns a user with
`is_staff = true` and `is_superuser = true`; `is_active` is defaulted to
true when the caller does not pass it, but an explicit `is_active=False` is
accepted (the code never checks it). -/
theorem create_superuser_ok_flags (db db1 : DB) (u : CustomUser)
    (e : String) (p : Option String) (ef : ExtraFields)
    (h : CustomUserManager.create_superuser db e p ef = .ok (db1, u)) :
    u.is_staff = true ∧ u.is_superuser = true ∧
      (ef.is_active = none → u.is_active = true) := by
  unfold CustomUserManager.create_superuser at h
  dsimp only at h
  split at h
  · exact absurd h (by simp)
  · split at h
    · exact absurd h (by simp)
    · rename_i hstaff hsuper
      unfold CustomUserManager.create_user at h
      split at h
      · exact absurd h (by simp)
      · have hfields := save_user_preserves_fields 2 _ _ _ _ h
        have hstaff1 : ef.is_staff.getD true = true := by
          simpa using hstaff
        have hsuper1 : ef.is_superuser.getD true = true := by
          simpa using hsuper
        refine ⟨?_, ?_, ?_⟩
        · rw [hfields.2.2.1]
          simpa [CustomUser.model_init, CustomUser.set_password] using hstaff1
        · rw [hfields.2.2.2.1]
          simpa [CustomUser.model_init, CustomUser.set_password] using hsuper1
        · intro ha
          rw [hfields.2.2.2.2.1]
          simp [CustomUser.model_init, CustomUser.set_password, ha]

/-- C4 witness for the amended theorem: a concrete successful call. -/
theorem create_superuser_ok_flags_witness :
    superuserResult.2.is_staff = true ∧
    superuserResult.2.is_superuser = true ∧
    (({} : ExtraFields).is_active = none → superuserResult.2.is_active = true) :=
  create_superuser_ok_flags DB.empty superuserResult.1 superuserResult.2
    "root@example.com" none {} (by rfl)

/-- Replacing the row with primary key `n` is the identity on a list of
rows none of which has that key. -/
theorem map_upsert_id (l : List CustomUser) (n : Nat) (v : CustomUser)
    (h : ∀ r ∈ l, (r.id == n) = false) :
    l.map (fun r => if r.id == n then v else r) = l := by
  induction l with
  | nil => rfl
  | cons a t ih =>
    rw [List.map_cons, ih (fun r hr => h r (List.mem_cons_of_mem a hr)),
      if_neg (by simp [h a (List.mem_cons_self a t)])]

/-- Execution of a fresh, successful `create_user` call on a well-formed
store: the final store appends exactly one user row (the normalized,
password-hashed user with the fresh address attached) and exactly one empty
address row, and returns that user. -/
theorem create_user_run (db : DB) (email : String) (pw : Option String)
    (ef : ExtraFields) (hwf : db.WF) (haddr : ef.address = none)
    (hne : ¬ email = "")
    (hdup : ∀ r ∈ db.users, r.email ≠ normalize_email email) :
    CustomUserManager.create_user db email pw ef =
      .ok ({ users := db.users ++ [finalUser db email pw ef],
             addresses := db.addresses ++ [emptyAddressAt db.next_address_id],
             next_user_id := db.next_user_id + 1,
             next_address_id := db.next_address_id + 1 },
           finalUser db email pw ef) := by
  have hid : ∀ r ∈ db.users, (r.id == db.next_user_id) = false := by
    intro r hr
    simp only [beq_eq_false_iff_ne]
    exact Nat.ne_of_lt (hwf.1 r hr)
  have hmail : ∀ r ∈ db.users, (r.email == normalize_email email) = false := by
    intro r hr
    simp only [beq_eq_false_iff_ne]
    exact hdup r hr
  have hany1 : db.users.any
      (fun r => !(r.id == db.next_user_id) &&
        (r.email == normalize_email email)) = false := by
    simp only [List.any_eq_false]
    intro r hr
    simp [hmail r hr]
  have hall1 : db.users.all (fun r => !(r.id == db.next_user_id)) = true := by
    simp only [List.all_eq_true]
    intro r hr
    simp [hid r hr]
  have hany2 : db.users.any (fun r => r.id == db.next_user_id) = false := by
    simp only [List.any_eq_false]
    intro r hr
    simp [hid r hr]
  simp only [CustomUserManager.create_user, if_neg hne]
  rw [show (2:Nat) = 1+1 from rfl]
  simp only [save_user, CustomUser.model_init, CustomUser.set_password]
  rw [haddr]
  simp only [DB.upsert, Address.create, hany1, hany2, hall1,
    Bool.false_eq_true, if_false, Option.isNone_none, Bool.and_true,
    Bool.true_and, if_true, List.any_append, List.all_append,
    List.any_cons, List.any_nil, List.all_cons, List.all_nil,
    beq_self_eq_true, Bool.not_true, Bool.false_and, Bool.and_false,
    Bool.or_false, Bool.false_or, Bool.not_false, Bool.true_and]
  rw [List.map_append, map_upsert_id db.users db.next_user_id _ hid]
  simp only [List.map_cons, List.map_nil, beq_self_eq_true, if_true]
  have hmax : db.next_user_id ⊔ (db.next_user_id + 1) = db.next_user_id + 1 :=
    sup_eq_right.mpr (Nat.le_succ _)
  rw [hmax]
  simp [finalUser, emptyAddressAt]

/-- A `create_user` call whose normalized email is already stored by some
row of a well-formed store fails with the uniqueness error. -/
theorem create_user_duplicate_email (db : DB) (email : String)
    (pw : Option String) (ef : ExtraFields) (hwf : db.WF)
    (hne : ¬ email = "") (r : CustomUser) (hr : r ∈ db.users)
    (hmail : r.email = normalize_email email) :
    CustomUserManager.create_user db email pw ef =
      .error "UNIQUE constraint failed: email" := by
  have hany : db.users.any
      (fun x => !(x.id == db.next_user_id) &&
        (x.email == normalize_email email)) = true := by
    rw [List.any_eq_true]
    refine ⟨r, hr, ?_⟩
    have hx : (r.id == db.next_user_id) = false := by
      simp only [beq_eq_false_iff_ne]
      exact Nat.ne_of_lt (hwf.1 r hr)
    simp [hx, hmail]
  simp only [CustomUserManager.create_user, if_neg hne]
  rw [show (2:Nat) = 1+1 from rfl]
  simp only [save_user, CustomUser.model_init, CustomUser.set_password]
  simp [hany]

/-- A fresh successful `create_user` call preserves well-formedness of the
store. -/
theorem create_user_result_WF (db : DB) (email : String) (pw : Option String)
    (ef : ExtraFields) (hwf : db.WF) :
    ({ users := db.users ++ [finalUser db email pw ef],
       addresses := db.addresses ++ [emptyAddressAt db.next_address_id],
       next_user_id := db.next_user_id + 1,
       next_address_id := db.next_address_id + 1 } : DB).WF := by
  constructor
  · intro r hr
    rcases List.mem_append.mp hr with hr | hr
    · exact Nat.lt_succ_of_lt (hwf.1 r hr)
    · rw [List.mem_singleton] at hr
      subst hr
      exact Nat.lt_succ_self _
  · intro a ha
    rcases List.mem_append.mp ha with ha | ha
    · exact Nat.lt_succ_of_lt (hwf.2 a ha)
    · rw [List.mem_singleton] at ha
      subst ha
      exact Nat.lt_succ_self _

/-- C1: once the post-create hook has fired, every user created by a
successful `create_user` call (on a well-formed store, with no address
passed in `extra_fields`) has exactly one `Address` record linked to it:
the returned user carries a fresh address id, exactly one address row with
that id exists, exactly one address row (an empty one) was created, the
re-saved user is stored, and a later re-save of that user creates no
further address and leaves the user unchanged. -/
theorem create_user_provisions_exactly_one_address
    (db db1 : DB) (u : CustomUser) (email : String) (pw : Option String)
    (ef : ExtraFields) (hwf : db.WF) (haddr : ef.address = none)
    (h : CustomUserManager.create_user db email pw ef = .ok (db1, u)) :
    ∃ aid,
      u.address = some aid ∧
      (db1.addresses.filter (fun a => a.id == aid)).length = 1 ∧
      db1.addresses.length = db.addresses.length + 1 ∧
      emptyAddressAt aid ∈ db1.addresses ∧
      u ∈ db1.users ∧
      (∀ db2 u2, save_user 2 db1 u = .ok (db2, u2) →
        db2.addresses = db1.addresses ∧ u2 = u) := by
  by_cases hne : email = ""
  · rw [hne] at h
    simp [CustomUserManager.create_user] at h
  by_cases hdup : ∀ r ∈ db.users, r.email ≠ normalize_email email
  case neg =>
    push_neg at hdup
    obtain ⟨r, hr, hmail⟩ := hdup
    rw [create_user_duplicate_email db email pw ef hwf hne r hr hmail] at h
    exact absurd h (by simp)
  rw [create_user_run db email pw ef hwf haddr hne hdup] at h
  rw [Except.ok.injEq, Prod.mk.injEq] at h
  obtain ⟨hdb, hu⟩ := h
  subst hdb
  subst hu
  refine ⟨db.next_address_id, rfl, ?_, ?_, ?_, ?_, ?_⟩
  · have hfid : ∀ a ∈ db.addresses, (a.id == db.next_address_id) = false := by
      intro a ha
      simp only [beq_eq_false_iff_ne]
      exact Nat.ne_of_lt (hwf.2 a ha)
    have hnil : db.addresses.filter
        (fun a => a.id == db.next_address_id) = [] := by
      rw [List.filter_eq_nil_iff]
      intro a ha
      simp [hfid a ha]
    simp [List.filter_append, hnil, emptyAddressAt]
  · simp
  · simp [emptyAddressAt]
  · simp
  · intro db2 u2 h2
    have hid : ∀ r ∈ db.users, (r.id == db.next_user_id) = false := by
      intro r hr
      simp only [beq_eq_false_iff_ne]
      exact Nat.ne_of_lt (hwf.1 r hr)
    have hmail : ∀ r ∈ db.users,
        (r.email == normalize_email email) = false := by
      intro r hr
      simp only [beq_eq_false_iff_ne]
      exact hdup r hr
    have hany1 : db.users.any
        (fun r => !(r.id == db.next_user_id) &&
          (r.email == normalize_email email)) = false := by
      simp only [List.any_eq_false]
      intro r hr
      simp [hmail r hr]
    have hall1 : db.users.all (fun r => !(r.id == db.next_user_id)) = true := by
      simp only [List.all_eq_true]
      intro r hr
      simp [hid r hr]
    have hany2 : db.users.any (fun r => r.id == db.next_user_id) = false := by
      simp only [List.any_eq_false]
      intro r hr
      simp [hid r hr]
    rw [show (2:Nat) = 1+1 from rfl] at h2
    simp only [save_user, finalUser, DB.upsert, List.any_append,
      List.all_append, List.any_cons, List.any_nil, List.all_cons,
      List.all_nil, beq_self_eq_true, Bool.not_true, Bool.false_and,
      Bool.and_false, Bool.or_false, Bool.false_or, Bool.and_true,
      Bool.true_and, Option.isNone_some, hany1, hall1, hany2,
      Bool.false_eq_true, if_false, Bool.true_or, Bool.or_true, if_true] at h2
    rw [List.map_append, map_upsert_id db.users db.next_user_id _ hid] at h2
    simp only [List.map_cons, List.map_nil, beq_self_eq_true, if_true] at h2
    rw [Except.ok.injEq, Prod.mk.injEq] at h2
    obtain ⟨hdb2, hu2⟩ := h2
    subst hdb2
    subst hu2
    exact ⟨rfl, by simp [finalUser]⟩

/-- Witness for C1 at a concrete input. -/
theorem create_user_provisions_exactly_one_address_witness :
    (DB.empty.WF ∧ ({} : ExtraFields).address = none) ∧
    ∃ aid,
      uC1.address = some aid ∧
      (dbC1.addresses.filter (fun a => a.id == aid)).length = 1 ∧
      dbC1.addresses.length = DB.empty.addresses.length + 1 ∧
      emptyAddressAt aid ∈ dbC1.addresses ∧
      uC1 ∈ dbC1.users ∧
      (∀ db2 u2, save_user 2 dbC1 uC1 = .ok (db2, u2) →
        db2.addresses = dbC1.addresses ∧ u2 = uC1) :=
  ⟨⟨by decide, rfl⟩,
   create_user_provisions_exactly_one_address DB.empty dbC1 uC1
     "c1@example.com" none {} (by decide) rfl (by rfl)⟩

/-- C6 counterexample: `normalize_email` lowercases only the domain part,
and the UNIQUE constraint compares stored emails exactly.  With
`a@example.com` stored, the case-variant `A@example.com` (upper-case LOCAL
part) is NOT rejected as a duplicate: the call succeeds and a second user
is persisted, defeating the claim for that case-variant. -/
theorem email_local_case_variant_not_rejected :
    CustomUserManager.create_user DB.empty "a@example.com" none {} =
      .ok (dbE1, uE1) ∧
    (CustomUserManager.create_user dbE1 "A@example.com" none {}).toOption.map
      (fun r => (r.1.users.length, r.2.email)) =
      some (2, "A@example.com") :=
  ⟨rfl, rfl⟩

/-- C6 amended: a successful fresh `create_user` stores the canonical
(normalized) form of the email, and a subsequent `create_user` whose email
NORMALIZES to the stored email — in particular any case-variant of the
domain part — fails as a duplicate.  (A case-variant of the local part does
not normalize to the stored email and is not rejected, which is what
defeats the unamended claim.) -/
theorem create_user_normalizes_and_rejects_normalized_duplicate
    (db db1 : DB) (u : CustomUser) (e1 e2 : String)
    (p1 p2 : Option String) (ef1 ef2 : ExtraFields)
    (hwf : db.WF) (haddr : ef1.address = none)
    (h1 : CustomUserManager.create_user db e1 p1 ef1 = .ok (db1, u))
    (hn : normalize_email e2 = u.email) (hne2 : ¬ e2 = "") :
    u.email = normalize_email e1 ∧
      CustomUserManager.create_user db1 e2 p2 ef2 =
        .error "UNIQUE constraint failed: email" := by
  by_cases hne1 : e1 = ""
  · rw [hne1] at h1
    simp [CustomUserManager.create_user] at h1
  by_cases hdup : ∀ r ∈ db.users, r.email ≠ normalize_email e1
  case neg =>
    push_neg at hdup
    obtain ⟨r, hr, hmail⟩ := hdup
    rw [create_user_duplicate_email db e1 p1 ef1 hwf hne1 r hr hmail] at h1
    exact absurd h1 (by simp)
  rw [create_user_run db e1 p1 ef1 hwf haddr hne1 hdup] at h1
  rw [Except.ok.injEq, Prod.mk.injEq] at h1
  obtain ⟨hdb, hu⟩ := h1
  subst hdb
  subst hu
  refine ⟨rfl, ?_⟩
  exact create_user_duplicate_email _ e2 p2 ef2
    (create_user_result_WF db e1 p1 ef1 hwf) hne2
    (finalUser db e1 p1 ef1) (by simp) hn.symm

/-- Witness for the amended C6 at a concrete input: `a@example.com` is
stored as typed (already canonical), and the domain-case variant
`a@EXAMPLE.COM` is rejected as a duplicate. -/
theorem create_user_normalizes_and_rejects_normalized_duplicate_witness :
    (DB.empty.WF ∧ normalize_email "a@EXAMPLE.COM" = uE1.email) ∧
    (uE1.email = normalize_email "a@example.com" ∧
      CustomUserManager.create_user dbE1 "a@EXAMPLE.COM" none {} =
        .error "UNIQUE constraint failed: email") :=
  ⟨⟨by decide, by rfl⟩,
   create_user_normalizes_and_rejects_normalized_duplicate DB.empty dbE1 uE1
     "a@example.com" "a@EXAMPLE.COM" none none {} {} (by decide) rfl
     (by rfl) (by rfl) (by decide)⟩

/-- C10: for every non-empty, not-yet-stored email on a well-formed store,
`create_user` succeeds even with the password omitted (`none`); a user
record is persisted, and the stored password field holds the hashed form
produced from the supplied password — never the raw password itself. -/
theorem create_user_hashes_password (db : DB) (e : String)
    (p : Option String) (ef : ExtraFields) (hwf : db.WF)
    (haddr : ef.address = none) (hne : ¬ e = "")
    (hdup : ∀ r ∈ db.users, r.email ≠ normalize_email e) :
    ∃ db1 u, CustomUserManager.create_user db e p ef = .ok (db1, u) ∧
      u ∈ db1.users ∧ u.password = make_password p ∧
      ∀ raw, p = some raw → u.password ≠ raw := by
  refine ⟨_, _, create_user_run db e p ef hwf haddr hne hdup, ?_, rfl, ?_⟩
  · simp
  · intro raw hraw
    subst hraw
    intro heq
    have hlen := congrArg String.length heq
    rw [show (finalUser db e (some raw) ef).password =
      "pbkdf2_sha256$hash$" ++ raw from rfl, String.length_append] at hlen
    have h19 : ("pbkdf2_sha256$hash$" : String).length = 19 := rfl
    omega

/-- Witness for C10 at a concrete input, with the password omitted. -/
theorem create_user_hashes_password_witness :
    DB.empty.WF ∧
    ∃ db1 u, CustomUserManager.create_user DB.empty "x@example.com" none {} =
        .ok (db1, u) ∧
      u ∈ db1.users ∧ u.password = make_password none ∧
      ∀ raw, (none : Option String) = some raw → u.password ≠ raw :=
  ⟨by decide,
   create_user_hashes_password DB.empty "x@example.com" none {} (by decide)
     rfl (by decide) (by decide)⟩
